import Mathlib

/-!
Shallow embedding of the active probing core of `netdia` (a Tauri network
diagnostics tool), covering the parts of `src-tauri/src` that the verified
properties are about:

* `operation.rs`          — the operation registry (`start_op` / `cancel_op`);
* `net/speedtest.rs`      — the throughput engine (`download_test`, the upload
                            body generator of `upload_test`);
* `command/speedtest.rs`  — the command shell (`start_speedtest`'s spawned
                            task, `stop_speedtest`);
* `net/latency.rs`        — the latency engine (`median`, `stddev`,
                            `measure_latency_jitter`'s terminal payload);
* `probe/scan/icmp.rs`    — the ICMP host-scan engine (`host_scan`);
* `probe/ping/udp/windows.rs`, `probe/trace/udp/windows.rs`
                          — the Windows platform guards.

Modelling conventions. Machine integers (`u64`, `u16`, …) in the claims'
paths never overflow their width for the quantities involved and are
modelled as `Nat`. Wall-clock instants are abstracted: every observation of
`start.elapsed()` is an explicit `elapsedMs : Nat` attached to the event
that triggers it. Event emission (`app.emit`) is modelled by returning the
list of emitted payloads; `f64`-valued rate fields (`instant_mbps`,
`avg_mbps`) are pure functions of fields that are modelled and are claimed
by no verified property, so they are left out of the payload records.
Fallible Rust functions returning `anyhow::Result` become `Except String`.
-/

namespace Netdia

/-! ## Speedtest data model (`model/speedtest.rs`) -/

/-- `SpeedtestDirection` from `model/speedtest.rs`. -/
inductive SpeedtestDirection where
  | download
  | upload
deriving DecidableEq, Repr

/-- `SpeedtestResult` from `model/speedtest.rs`. -/
inductive SpeedtestResult where
  | full
  | timeout
  | canceled
  | error
deriving DecidableEq, Repr

/-- `SpeedtestDonePayload` from `model/speedtest.rs` (without the derived
`avg_mbps : f64` rate field, see the conventions above). -/
structure SpeedtestDonePayload where
  direction : SpeedtestDirection
  result : SpeedtestResult
  elapsed_ms : Nat
  transferred_bytes : Nat
  target_bytes : Nat
  message : Option String
deriving DecidableEq, Repr

/-! ## Download loop (`net/speedtest.rs`, `download_test`)

The `tokio::select!` loop of `download_test` reacts to two sources: the
250 ms ticker and the response body stream. A run is modelled as the list
of loop-arm firings in the order the loop processes them; each firing
carries the value `start.elapsed()` had at that moment (in ms). -/

/-- One firing of the `tokio::select!` in `download_test`: a ticker tick, a
successful body chunk, a body stream error, or the end of the stream. -/
inductive DlEvent where
  | tick (elapsedMs : Nat)
  | chunk (len : Nat) (elapsedMs : Nat)
  | chunkErr (msg : String) (elapsedMs : Nat)
  | streamEnd
deriving DecidableEq, Repr

/-- The loop-carried state of `download_test`: `transferred`, the latest
observed elapsed time, and the current `result` label (initialised to
`Full` before the loop). -/
structure DlState where
  transferred : Nat
  now : Nat
  result : SpeedtestResult
deriving DecidableEq, Repr

/-- Outcome of `download_test`: `ok p` — the loop broke and the final
`speedtest:done` payload `p` was emitted, the function returned `Ok(())`;
`fail p msg` — the stream errored, `p` (with `result = Error`) was emitted
and the function returned `Err(msg)`; `pending s` — the modelled event
list ended before the loop broke (the run is still in flight). -/
inductive DlOutcome where
  | ok (p : SpeedtestDonePayload)
  | fail (p : SpeedtestDonePayload) (msg : String)
  | pending (s : DlState)
deriving DecidableEq, Repr

/-- The terminal `speedtest:done` payload of a download run. -/
def dlDone (result : SpeedtestResult) (transferred elapsedMs target : Nat)
    (message : Option String) : SpeedtestDonePayload :=
  { direction := .download
    result := result
    elapsed_ms := elapsedMs
    transferred_bytes := transferred
    target_bytes := target
    message := message }

/-- The `loop { tokio::select! { … } }` of `download_test`
(`net/speedtest.rs:111-177`), followed by the final `speedtest:done`
emission (`net/speedtest.rs:182-190`).

* tick arm: emit an update (not tracked), then break `Timeout` if
  `elapsed >= max_duration`, else break `Full` if
  `transferred >= target_bytes`;
* chunk arm: `transferred += len`, break `Full` if
  `transferred >= target_bytes`, else break `Timeout` if
  `elapsed >= max_duration`;
* stream error: emit `done { result = Error, message }` and return `Err`;
* stream end: break with the current `result` label.

The code re-reads `start.elapsed()` right after the loop for the final
payload; that re-read is modelled as the last elapsed value the loop
observed. -/
def downloadLoop (target maxDur : Nat) : DlState → List DlEvent → DlOutcome
  | s, [] => .pending s
  | s, .tick el :: rest =>
    if maxDur ≤ el then
      .ok (dlDone .timeout s.transferred el target none)
    else if target ≤ s.transferred then
      .ok (dlDone .full s.transferred el target none)
    else
      downloadLoop target maxDur { s with now := el } rest
  | s, .chunk len el :: rest =>
    let t := s.transferred + len
    if target ≤ t then
      .ok (dlDone .full t el target none)
    else if maxDur ≤ el then
      .ok (dlDone .timeout t el target none)
    else
      downloadLoop target maxDur { transferred := t, now := el, result := s.result } rest
  | s, .chunkErr msg el :: _ =>
    .fail (dlDone .error s.transferred el target (some msg)) msg
  | s, .streamEnd :: _ =>
    .ok (dlDone s.result s.transferred s.now target none)

/-- `download_test` (`net/speedtest.rs:81-193`) after a successful 2xx
response: run the select loop from `transferred = 0`, `result = Full`. -/
def download_test (target maxDur : Nat) (events : List DlEvent) : DlOutcome :=
  downloadLoop target maxDur { transferred := 0, now := 0, result := .full } events

/-! ## Speedtest command shell (`command/speedtest.rs`) -/

/-- The extra `speedtest:done` payload the spawned task of `start_speedtest`
emits when the inner `run_speedtest` returns an error
(`command/speedtest.rs:37-47`): zeroed elapsed/transferred, `result = Error`,
the returned error as the message. -/
def shellErrorDone (direction : SpeedtestDirection) (target : Nat) (msg : String) :
    SpeedtestDonePayload :=
  { direction := direction
    result := .error
    elapsed_ms := 0
    transferred_bytes := 0
    target_bytes := target
    message := some msg }

/-- The `speedtest:done` payloads emitted, in order, by the task that
`start_speedtest` spawns for a download run whose token fetch and HTTP
response succeeded (`command/speedtest.rs:33-52` around `download_test`):
the engine's own terminal emission(s), then — exactly when the inner
function returned `Err` — the shell's extra `Error` payload. -/
def startSpeedtestTaskDones (target maxDur : Nat) (events : List DlEvent) :
    List SpeedtestDonePayload :=
  match download_test target maxDur events with
  | .ok p => [p]
  | .fail p msg => [p, shellErrorDone .download target msg]
  | .pending _ => []

/-! ## C1: download termination dichotomy -/

/-- Invariant-carrying characterisation of every `ok` outcome of the
download loop: starting from a state with `transferred < target`,
`result = Full` and `now < maxDur`, a normal break yields `Timeout`
exactly when the payload has `transferred < target` and
`elapsed ≥ maxDur`, and yields `Full` or `Timeout`, nothing else. -/
theorem downloadLoop_ok_char (target maxDur : Nat) :
    ∀ (events : List DlEvent) (s : DlState),
      s.transferred < target → s.result = .full → s.now < maxDur →
      ∀ p, downloadLoop target maxDur s events = .ok p →
        (p.result = .full ∨ p.result = .timeout) ∧
        (p.result = .timeout ↔ p.transferred_bytes < target ∧ maxDur ≤ p.elapsed_ms) := by
  intro events
  induction events with
  | nil => intro s _ _ _ p h; exact absurd h (by simp [downloadLoop])
  | cons e rest ih =>
    intro s hlt hres hnow p h
    cases e with
    | tick el =>
      by_cases hel : maxDur ≤ el
      · simp only [downloadLoop, if_pos hel] at h
        cases h
        exact ⟨Or.inr rfl, by simp [dlDone, hlt, hel]⟩
      · by_cases htr : target ≤ s.transferred
        · exact absurd htr (not_le.mpr hlt)
        · simp only [downloadLoop, if_neg hel, if_neg htr] at h
          exact ih { s with now := el } hlt hres (lt_of_not_le hel) p h
    | chunk len el =>
      by_cases htr : target ≤ s.transferred + len
      · simp only [downloadLoop, if_pos htr] at h
        cases h
        constructor
        · exact Or.inl rfl
        · simp only [dlDone]
          constructor
          · intro hcontra; cases hcontra
          · intro ⟨hlt2, _⟩; exact absurd htr (not_le.mpr hlt2)
      · by_cases hel : maxDur ≤ el
        · simp only [downloadLoop, if_neg htr, if_pos hel] at h
          cases h
          exact ⟨Or.inr rfl, by simp [dlDone, lt_of_not_le htr, hel]⟩
        · simp only [downloadLoop, if_neg htr, if_neg hel] at h
          exact ih { transferred := s.transferred + len, now := el, result := s.result }
            (lt_of_not_le htr) hres (lt_of_not_le hel) p h
    | chunkErr msg el =>
      exact absurd h (by simp [downloadLoop])
    | streamEnd =>
      simp only [downloadLoop] at h
      cases h
      constructor
      · exact Or.inl (by simp [dlDone, hres])
      · simp only [dlDone, hres]
        constructor
        · intro hcontra; cases hcontra
        · intro ⟨_, hge⟩; exact absurd hge (not_le.mpr hnow)

/-- C1 (amended): for every download run that terminates normally with
payload `p` (positive target and positive max duration), `p.result` is
`Full` or `Timeout`; it is `Timeout` exactly when the run ended with
`transferred_bytes < target_bytes` at an observation of
`elapsed ≥ max_duration`, and `Full` exactly otherwise — in particular a
run whose body stream ends with `transferred_bytes < target_bytes` and
`elapsed < max_duration` terminates with `result = Full` (the default
label), not with a result determined by which threshold was reached
first. -/
theorem download_result_dichotomy (target maxDur : Nat) (events : List DlEvent)
    (hT : 0 < target) (hM : 0 < maxDur) (p : SpeedtestDonePayload)
    (h : download_test target maxDur events = .ok p) :
    (p.result = .full ∨ p.result = .timeout) ∧
    (p.result = .timeout ↔ p.transferred_bytes < target ∧ maxDur ≤ p.elapsed_ms) ∧
    (p.result = .full ↔ target ≤ p.transferred_bytes ∨ p.elapsed_ms < maxDur) := by
  have hchar := downloadLoop_ok_char target maxDur events
    { transferred := 0, now := 0, result := .full } hT rfl hM p h
  refine ⟨hchar.1, hchar.2, ?_⟩
  constructor
  · intro hfull
    by_contra hcontra
    push_neg at hcontra
    exact absurd (hchar.2.mpr ⟨hcontra.1, hcontra.2⟩) (by simp [hfull])
  · intro hc
    rcases hchar.1 with hfull | htime
    · exact hfull
    · rcases hchar.2.mp htime with ⟨hlt, hge⟩
      rcases hc with hge2 | hlt2
      · exact absurd hge2 (not_le.mpr hlt)
      · exact absurd hge (not_le.mpr hlt2)

/-- C1 witness: a run that receives one 10-byte chunk at 5 ms against
`target_bytes = 10`, `max_duration = 100` terminates `Full` with the
dichotomy's fields. -/
theorem download_result_dichotomy_witness :
    ((dlDone .full 10 5 10 none).result = .full ∨
      (dlDone .full 10 5 10 none).result = .timeout) ∧
    ((dlDone .full 10 5 10 none).result = .timeout ↔
      (dlDone .full 10 5 10 none).transferred_bytes < 10 ∧
        100 ≤ (dlDone .full 10 5 10 none).elapsed_ms) ∧
    ((dlDone .full 10 5 10 none).result = .full ↔
      10 ≤ (dlDone .full 10 5 10 none).transferred_bytes ∨
        (dlDone .full 10 5 10 none).elapsed_ms < 100) :=
  download_result_dichotomy 10 100 [DlEvent.chunk 10 5]
    (by decide) (by decide) (dlDone .full 10 5 10 none) (by decide)

/-- C1 counterexample: the claim's dichotomy fails on the code. With
`target_bytes = 100`, `max_duration = 1000`, a body stream that ends
immediately (no chunk, no timeout) terminates normally with
`result = Full` although `transferred_bytes = 0` never reached the target
and `elapsed = 0` never reached the max duration. -/
theorem download_full_on_early_stream_end :
    download_test 100 1000 [DlEvent.streamEnd] =
      .ok (dlDone .full 0 0 100 none) ∧ (0 : Nat) < 100 ∧ (0 : Nat) < 1000 := by
  decide

/-! ## C3: stream-error path of the download engine and the task shell -/

/-- Every `fail` outcome of the download loop comes from the stream-error
arm: its emitted payload carries `result = Error`, the stream error as the
message, and the run's target. -/
theorem downloadLoop_fail_char (target maxDur : Nat) :
    ∀ (events : List DlEvent) (s : DlState) (p : SpeedtestDonePayload) (msg : String),
      downloadLoop target maxDur s events = .fail p msg →
      p.result = .error ∧ p.message = some msg ∧ p.target_bytes = target := by
  intro events
  induction events with
  | nil => intro s p msg h; exact absurd h (by simp [downloadLoop])
  | cons e rest ih =>
    intro s p msg h
    cases e with
    | tick el =>
      by_cases hel : maxDur ≤ el
      · simp [downloadLoop, if_pos hel] at h
      · by_cases htr : target ≤ s.transferred
        · simp [downloadLoop, if_neg hel, if_pos htr] at h
        · simp only [downloadLoop, if_neg hel, if_neg htr] at h
          exact ih _ p msg h
    | chunk len el =>
      by_cases htr : target ≤ s.transferred + len
      · simp [downloadLoop, if_pos htr] at h
      · by_cases hel : maxDur ≤ el
        · simp [downloadLoop, if_neg htr, if_pos hel] at h
        · simp only [downloadLoop, if_neg htr, if_neg hel] at h
          exact ih _ p msg h
    | chunkErr m el =>
      simp only [downloadLoop] at h
      cases h
      exact ⟨rfl, rfl, rfl⟩
    | streamEnd => simp [downloadLoop] at h

/-- C3 (amended): when the body stream errors, `download_test` emits a
`speedtest:done` with `result = Error` carrying the stream error and
returns `Err` — and the spawned task of `start_speedtest` then emits a
second `speedtest:done { result = Error }` built from the returned error,
so the run produces exactly two terminal `speedtest:done` events, both
labelled `Error` (not exactly one). -/
theorem speedtest_error_two_dones (target maxDur : Nat) (events : List DlEvent)
    (p : SpeedtestDonePayload) (msg : String)
    (h : download_test target maxDur events = .fail p msg) :
    p.result = .error ∧ p.message = some msg ∧
    startSpeedtestTaskDones target maxDur events =
      [p, shellErrorDone .download target msg] ∧
    (startSpeedtestTaskDones target maxDur events).length = 2 ∧
    ∀ q ∈ startSpeedtestTaskDones target maxDur events, q.result = .error := by
  have hp := downloadLoop_fail_char target maxDur events _ p msg h
  have hemits : startSpeedtestTaskDones target maxDur events =
      [p, shellErrorDone .download target msg] := by
    simp [startSpeedtestTaskDones, h]
  refine ⟨hp.1, hp.2.1, hemits, by simp [hemits], ?_⟩
  intro q hq
  rw [hemits] at hq
  simp only [List.mem_cons, List.not_mem_nil, or_false] at hq
  rcases hq with rfl | rfl
  · exact hp.1
  · rfl

/-- C3 witness: a download run whose stream errors with `"boom"` at 3 ms
emits the engine's `Error` done and the shell's second `Error` done. -/
theorem speedtest_error_two_dones_witness :
    (dlDone .error 0 3 10 (some "boom")).result = .error ∧
    (dlDone .error 0 3 10 (some "boom")).message = some "boom" ∧
    startSpeedtestTaskDones 10 100 [DlEvent.chunkErr "boom" 3] =
      [dlDone .error 0 3 10 (some "boom"), shellErrorDone .download 10 "boom"] ∧
    (startSpeedtestTaskDones 10 100 [DlEvent.chunkErr "boom" 3]).length = 2 ∧
    ∀ q ∈ startSpeedtestTaskDones 10 100 [DlEvent.chunkErr "boom" 3],
      q.result = SpeedtestResult.error :=
  speedtest_error_two_dones 10 100 [DlEvent.chunkErr "boom" 3]
    (dlDone .error 0 3 10 (some "boom")) "boom" (by decide)

/-- C3 counterexample: on a stream error the spawned task emits two
`speedtest:done` events for the one run, refuting "exactly one terminal
event is emitted". -/
theorem speedtest_error_emits_two_not_one :
    (startSpeedtestTaskDones 10 100 [DlEvent.chunkErr "boom" 3]).length = 2 ∧
    (startSpeedtestTaskDones 10 100 [DlEvent.chunkErr "boom" 3]).length ≠ 1 := by
  decide

/-! ## Operation registry (`operation.rs`)

The registry is a process-wide `HashMap<String, CancellationToken>` behind
a mutex. Tokens are modelled by the `Nat` at which they were created:
`next` counts tokens ever handed out, `cancelled` records the ids whose
`cancel()` has been called (a `tokio_util` cancellation token, once
cancelled, stays cancelled and every clone observes it). The map is an
association list with at most one entry per key, like the `HashMap`. -/

/-- The registry state: `{op-class → token}` plus token bookkeeping. -/
structure OpsState where
  map : List (String × Nat)
  cancelled : List Nat
  next : Nat
deriving DecidableEq, Repr

/-- The registry before any operation starts (`OPS` is initialised to an
empty map). -/
def initOps : OpsState := { map := [], cancelled := [], next := 0 }

/-- `HashMap` lookup on the association list (first match). -/
def lookupOp : List (String × Nat) → String → Option Nat
  | [], _ => none
  | (k', t) :: rest, k => if k' = k then some t else lookupOp rest k

/-- `HashMap::remove`: drop the entry for `k`. -/
def removeOp (m : List (String × Nat)) (k : String) : List (String × Nat) :=
  m.filter (fun e => decide (e.1 ≠ k))

/-- `is_cancelled()` of the token `t` in state `s`. -/
def isCancelled (t : Nat) (s : OpsState) : Prop := t ∈ s.cancelled

instance (t : Nat) (s : OpsState) : Decidable (isCancelled t s) := by
  unfold isCancelled; infer_instance

/-- `HashMap::insert`: an entry for `k` replaces any existing one. -/
def insertOp (m : List (String × Nat)) (k : String) (t : Nat) :
    List (String × Nat) :=
  (k, t) :: removeOp m k

/-- `start_op` (`operation.rs:19-29`): if an entry exists for `key`, remove
it and cancel the old token, then insert a fresh token and return it. -/
def start_op (key : String) (s : OpsState) : Nat × OpsState :=
  match lookupOp s.map key with
  | some old =>
    (s.next, { map := insertOp (removeOp s.map key) key s.next
               cancelled := old :: s.cancelled
               next := s.next + 1 })
  | none =>
    (s.next, { map := insertOp s.map key s.next
               cancelled := s.cancelled
               next := s.next + 1 })

/-- `cancel_op` (`operation.rs:31-39`): if an entry exists for `key`, cancel
the token and remove it, returning whether one was present. -/
def cancel_op (key : String) (s : OpsState) : Bool × OpsState :=
  match lookupOp s.map key with
  | some t =>
    (true, { s with map := removeOp s.map key, cancelled := t :: s.cancelled })
  | none => (false, s)

/-- Well-formedness of a registry state: every token id ever recorded is
below the fresh counter. Holds initially and is preserved by both
operations, so it holds of every reachable registry state. -/
structure OpsInv (s : OpsState) : Prop where
  map_lt : ∀ e ∈ s.map, e.2 < s.next
  cancelled_lt : ∀ t ∈ s.cancelled, t < s.next

/-- The initial registry is well-formed. -/
theorem opsInv_init : OpsInv initOps := by
  constructor <;> simp [initOps]

/-- Entries surviving `removeOp` are entries of the original map. -/
theorem mem_removeOp {m : List (String × Nat)} {k : String} {e : String × Nat}
    (h : e ∈ removeOp m k) : e ∈ m :=
  List.mem_of_mem_filter h

/-- Entries surviving `removeOp m k` do not have key `k`. -/
theorem removeOp_key_ne {m : List (String × Nat)} {k : String} {e : String × Nat}
    (h : e ∈ removeOp m k) : e.1 ≠ k := by
  have := List.of_mem_filter h
  exact of_decide_eq_true this

/-- A key looked up successfully names an entry of the map. -/
theorem lookupOp_mem {m : List (String × Nat)} {k : String} {t : Nat}
    (h : lookupOp m k = some t) : (k, t) ∈ m := by
  induction m with
  | nil => simp [lookupOp] at h
  | cons e rest ih =>
    by_cases hk : e.1 = k
    · simp only [lookupOp] at h
      rw [if_pos hk] at h
      cases h
      exact List.mem_cons.mpr (Or.inl (by rw [← hk]))
    · simp only [lookupOp] at h
      rw [if_neg hk] at h
      exact List.mem_cons_of_mem _ (ih h)

/-- Looking up the key just inserted finds the fresh token. -/
theorem lookupOp_insertOp (m : List (String × Nat)) (key : String) (t : Nat) :
    lookupOp (insertOp m key t) key = some t := by
  simp [insertOp, lookupOp]

/-- `start_op` preserves registry well-formedness. -/
theorem opsInv_start_op (key : String) (s : OpsState) (hinv : OpsInv s) :
    OpsInv (start_op key s).2 := by
  cases hlook : lookupOp s.map key with
  | none =>
    simp only [start_op, hlook, insertOp]
    refine ⟨?_, ?_⟩
    · intro e he
      rcases List.mem_cons.mp he with he | he
      · simp [he]
      · exact Nat.lt_succ_of_lt (hinv.map_lt e (mem_removeOp he))
    · intro t ht
      exact Nat.lt_succ_of_lt (hinv.cancelled_lt t ht)
  | some old =>
    simp only [start_op, hlook, insertOp]
    refine ⟨?_, ?_⟩
    · intro e he
      rcases List.mem_cons.mp he with he | he
      · simp [he]
      · exact Nat.lt_succ_of_lt (hinv.map_lt e (mem_removeOp (mem_removeOp he)))
    · intro t ht
      rcases List.mem_cons.mp ht with ht | ht
      · subst ht
        exact Nat.lt_succ_of_lt (hinv.map_lt _ (lookupOp_mem hlook))
      · exact Nat.lt_succ_of_lt (hinv.cancelled_lt t ht)

/-- C2: `start_op key` on any well-formed registry cancels the old token
for `key` (if any), installs a fresh uncancelled token that the map now
holds as the only entry for `key`, and after a second back-to-back
`start_op key` the first returned token is cancelled while only the second
is live: uncancelled, and the unique token mapped for `key`. -/
theorem start_op_spec (key : String) (s : OpsState) (hinv : OpsInv s) :
    (¬ isCancelled (start_op key s).1 (start_op key s).2) ∧
    lookupOp (start_op key s).2.map key = some (start_op key s).1 ∧
    (∀ e ∈ (start_op key s).2.map, e.1 = key → e.2 = (start_op key s).1) ∧
    (∀ old, lookupOp s.map key = some old → isCancelled old (start_op key s).2) ∧
    isCancelled (start_op key s).1 (start_op key (start_op key s).2).2 ∧
    (¬ isCancelled (start_op key (start_op key s).2).1
        (start_op key (start_op key s).2).2) ∧
    lookupOp (start_op key (start_op key s).2).2.map key =
      some (start_op key (start_op key s).2).1 ∧
    (∀ e ∈ (start_op key (start_op key s).2).2.map, e.1 = key →
        e.2 = (start_op key (start_op key s).2).1) ∧
    (start_op key s).1 ≠ (start_op key (start_op key s).2).1 := by
  -- facts about one `start_op` on an arbitrary well-formed state
  have fresh_not_cancelled : ∀ (s' : OpsState), OpsInv s' →
      ¬ isCancelled (start_op key s').1 (start_op key s').2 := by
    intro s' hinv' hc
    unfold isCancelled at hc
    cases hlook : lookupOp s'.map key with
    | none =>
      simp only [start_op, hlook] at hc
      exact absurd (hinv'.cancelled_lt _ hc) (lt_irrefl _)
    | some old =>
      simp only [start_op, hlook] at hc
      rcases List.mem_cons.mp hc with hc | hc
      · exact absurd (hinv'.map_lt _ (lookupOp_mem hlook)) (hc ▸ lt_irrefl _)
      · exact absurd (hinv'.cancelled_lt _ hc) (lt_irrefl _)
  have lookup_after : ∀ (s' : OpsState),
      lookupOp (start_op key s').2.map key = some (start_op key s').1 := by
    intro s'
    cases hlook : lookupOp s'.map key <;>
      simp [start_op, hlook, lookupOp_insertOp]
  have unique_after : ∀ (s' : OpsState), ∀ e ∈ (start_op key s').2.map,
      e.1 = key → e.2 = (start_op key s').1 := by
    intro s' e he hek
    cases hlook : lookupOp s'.map key <;>
      · simp only [start_op, hlook, insertOp] at he ⊢
        rcases List.mem_cons.mp he with he | he
        · simp [he]
        · exact absurd hek (removeOp_key_ne he)
  have old_cancelled : ∀ (s' : OpsState) (old : Nat),
      lookupOp s'.map key = some old → isCancelled old (start_op key s').2 := by
    intro s' old hlook
    unfold isCancelled
    simp [start_op, hlook]
  have first_in_second : isCancelled (start_op key s).1
      (start_op key (start_op key s).2).2 :=
    old_cancelled _ _ (lookup_after s)
  have hinv1 := opsInv_start_op key s hinv
  have ne_tokens : (start_op key s).1 ≠ (start_op key (start_op key s).2).1 := by
    intro heq
    exact fresh_not_cancelled _ hinv1 (heq ▸ first_in_second)
  exact ⟨fresh_not_cancelled s hinv, lookup_after s, unique_after s,
    old_cancelled s, first_in_second, fresh_not_cancelled _ hinv1,
    lookup_after _, unique_after _, ne_tokens⟩

/-- C2 witness: running `start_op "ping"` twice from the empty registry:
token 0 is returned first, then token 1; afterwards 0 is cancelled and 1
is the unique live token for `"ping"`. -/
theorem start_op_spec_witness :
    (¬ isCancelled (start_op "ping" initOps).1 (start_op "ping" initOps).2) ∧
    lookupOp (start_op "ping" initOps).2.map "ping" =
      some (start_op "ping" initOps).1 ∧
    (∀ e ∈ (start_op "ping" initOps).2.map, e.1 = "ping" →
        e.2 = (start_op "ping" initOps).1) ∧
    (∀ old, lookupOp initOps.map "ping" = some old →
        isCancelled old (start_op "ping" initOps).2) ∧
    isCancelled (start_op "ping" initOps).1
      (start_op "ping" (start_op "ping" initOps).2).2 ∧
    (¬ isCancelled (start_op "ping" (start_op "ping" initOps).2).1
        (start_op "ping" (start_op "ping" initOps).2).2) ∧
    lookupOp (start_op "ping" (start_op "ping" initOps).2).2.map "ping" =
      some (start_op "ping" (start_op "ping" initOps).2).1 ∧
    (∀ e ∈ (start_op "ping" (start_op "ping" initOps).2).2.map, e.1 = "ping" →
        e.2 = (start_op "ping" (start_op "ping" initOps).2).1) ∧
    (start_op "ping" initOps).1 ≠
      (start_op "ping" (start_op "ping" initOps).2).1 :=
  start_op_spec "ping" initOps opsInv_init

/-! ## Speedtest task slot (`state.rs`, `command/speedtest.rs`)

`AppState` holds the one-slot speedtest state: the in-flight task handle
and the recorded `(direction, target_bytes)` of the last started run.
Task handles are identified by a `Nat`; the fields of `AppState` the
speedtest commands do not touch are left out. -/

/-- The speedtest slots of `AppState` (`state.rs:35-37`). -/
structure SpeedSlot where
  speedtest_task : Option Nat
  speedtest_last : Option (SpeedtestDirection × Nat)
deriving DecidableEq, Repr

/-- `AppState::default` (`state.rs:41-50`): no held task, nothing recorded. -/
def initSpeedSlot : SpeedSlot :=
  { speedtest_task := none, speedtest_last := none }

/-- The slot effect of `start_speedtest` (`command/speedtest.rs:12-60`):
abort any held handle, record `(direction, target_bytes)`, spawn the run
and hold its handle. -/
def start_speedtest (direction : SpeedtestDirection) (targetBytes : Nat)
    (handle : Nat) (_st : SpeedSlot) : SpeedSlot :=
  { speedtest_task := some handle
    speedtest_last := some (direction, targetBytes) }

/-- The tail of the spawned task (`command/speedtest.rs:49-51`): clear the
held handle when the run finishes on its own. -/
def finishSpeedtestTask (st : SpeedSlot) : SpeedSlot :=
  { st with speedtest_task := none }

/-- `stop_speedtest` (`command/speedtest.rs:62-95`): take and abort the
held handle if any; if one was aborted and a prior `(direction, target)`
was recorded, emit one `speedtest:done { result = Canceled }` synthesized
from the record. Returns the emitted payloads and the new slot state. -/
def stop_speedtest (st : SpeedSlot) : List SpeedtestDonePayload × SpeedSlot :=
  match st.speedtest_task with
  | some _ =>
    (match st.speedtest_last with
     | some (d, t) =>
       [{ direction := d, result := .canceled, elapsed_ms := 0,
          transferred_bytes := 0, target_bytes := t, message := none }]
     | none => [],
     { st with speedtest_task := none })
  | none => ([], st)

/-- Slot states reachable through the speedtest commands from app start. -/
inductive SpeedReachable : SpeedSlot → Prop where
  | init : SpeedReachable initSpeedSlot
  | start (d : SpeedtestDirection) (tb hdl : Nat) (st : SpeedSlot) :
      SpeedReachable st → SpeedReachable (start_speedtest d tb hdl st)
  | finish (st : SpeedSlot) :
      SpeedReachable st → SpeedReachable (finishSpeedtestTask st)
  | stop (st : SpeedSlot) :
      SpeedReachable st → SpeedReachable (stop_speedtest st).2

/-- In every reachable slot state, a held task implies a recorded
`(direction, target)`: `start_speedtest` records before holding, and no
command clears the record. -/
theorem speedReachable_last_isSome {st : SpeedSlot} (h : SpeedReachable st) :
    st.speedtest_task.isSome → st.speedtest_last.isSome := by
  induction h with
  | init => simp [initSpeedSlot]
  | start d tb hdl st _ _ => simp [start_speedtest]
  | finish st _ _ => simp [finishSpeedtestTask]
  | stop st _ _ =>
    intro htask
    exfalso
    unfold stop_speedtest at htask
    cases h2 : st.speedtest_task <;> simp [h2] at htask

/-- C6: calling `stop_speedtest` on a reachable slot state while a task is
held emits exactly one `speedtest:done` with `result = Canceled`,
synthesized from the recorded prior direction and target, and releases the
slot; calling it when no task is held emits nothing. -/
theorem stop_speedtest_spec (st : SpeedSlot) (h : SpeedReachable st) :
    (st.speedtest_task.isSome →
      ∃ d t, st.speedtest_last = some (d, t) ∧
        (stop_speedtest st).1 =
          [{ direction := d, result := .canceled, elapsed_ms := 0,
             transferred_bytes := 0, target_bytes := t, message := none }] ∧
        (stop_speedtest st).1.length = 1 ∧
        (stop_speedtest st).2.speedtest_task = none) ∧
    (st.speedtest_task = none → (stop_speedtest st).1 = []) := by
  constructor
  · intro htask
    have hlast := speedReachable_last_isSome h htask
    cases hl : st.speedtest_last with
    | none => rw [hl] at hlast; cases hlast
    | some dt =>
      obtain ⟨d, t⟩ := dt
      cases ht : st.speedtest_task with
      | none => rw [ht] at htask; cases htask
      | some hdl =>
        exact ⟨d, t, rfl, by simp [stop_speedtest, ht, hl],
          by simp [stop_speedtest, ht, hl], by simp [stop_speedtest, ht]⟩
  · intro ht
    simp [stop_speedtest, ht]

/-- C6 witness: stopping right after starting a 100-byte download emits the
one synthesized `Canceled` done; stopping the empty initial slot is also
covered (vacuously here, directly by the `none` branch in general). -/
theorem stop_speedtest_spec_witness :
    ((start_speedtest .download 100 0 initSpeedSlot).speedtest_task.isSome →
      ∃ d t,
        (start_speedtest .download 100 0 initSpeedSlot).speedtest_last =
          some (d, t) ∧
        (stop_speedtest (start_speedtest .download 100 0 initSpeedSlot)).1 =
          [{ direction := d, result := .canceled, elapsed_ms := 0,
             transferred_bytes := 0, target_bytes := t, message := none }] ∧
        (stop_speedtest (start_speedtest .download 100 0 initSpeedSlot)).1.length
          = 1 ∧
        (stop_speedtest
          (start_speedtest .download 100 0 initSpeedSlot)).2.speedtest_task
          = none) ∧
    ((start_speedtest .download 100 0 initSpeedSlot).speedtest_task = none →
      (stop_speedtest (start_speedtest .download 100 0 initSpeedSlot)).1 = []) :=
  stop_speedtest_spec (start_speedtest .download 100 0 initSpeedSlot)
    (SpeedReachable.start .download 100 0 initSpeedSlot SpeedReachable.init)

/-! ## Upload body generator (`net/speedtest.rs`, `upload_test`)

The `try_unfold` generator (`net/speedtest.rs:208-229`) yields the request
body chunk by chunk: stop when `remaining == 0` or
`start.elapsed() >= max_duration`; otherwise yield
`min(remaining, CHUNK_SIZE)` zero bytes, decrement `remaining` and add the
chunk's size to the atomic `sent` counter. `elapsedAt k` is the value
`st.start.elapsed()` has (in ms) when the generator is polled for its
`(k+1)`-st chunk. The Rust generator has no step bound; every yielded
chunk removes at least one byte from `remaining`, so a fuel equal to the
initial `remaining` is never the binding constraint — `uploadGo`'s fuel
argument only makes the recursion structural, and `upload_body` below
instantiates it with the initial `remaining`. -/

/-- `CHUNK_SIZE` (`net/speedtest.rs:22`): 64 KiB. -/
def CHUNK_SIZE : Nat := 64 * 1024

/-- The polling loop of the upload generator closure
(`net/speedtest.rs:210-228`), returning the yielded chunks (each a list of
byte values) and the final `remaining`. -/
def uploadGo (maxDur : Nat) (elapsedAt : Nat → Nat) :
    Nat → Nat → Nat → List (List Nat) × Nat
  | 0, _, remaining => ([], remaining)
  | fuel + 1, k, remaining =>
    if remaining = 0 then ([], remaining)
    else if maxDur ≤ elapsedAt k then ([], remaining)
    else
      let take := min remaining CHUNK_SIZE
      let rest := uploadGo maxDur elapsedAt fuel (k + 1) (remaining - take)
      (List.replicate take 0 :: rest.1, rest.2)

/-- The full body stream of `upload_test` for a given target:
`UpState { remaining: target_bytes, start }` unfolded to exhaustion. -/
def upload_body (target maxDur : Nat) (elapsedAt : Nat → Nat) :
    List (List Nat) × Nat :=
  uploadGo maxDur elapsedAt target 0 target

/-- Unfolding: with no fuel the loop yields nothing. -/
theorem uploadGo_fuel_zero (maxDur : Nat) (elapsedAt : Nat → Nat) (k r : Nat) :
    uploadGo maxDur elapsedAt 0 k r = ([], r) := rfl

/-- Unfolding: the `remaining == 0` stop. -/
theorem uploadGo_stop_empty (maxDur : Nat) (elapsedAt : Nat → Nat)
    (f k : Nat) : uploadGo maxDur elapsedAt (f + 1) k 0 = ([], 0) := by
  simp [uploadGo]

/-- Unfolding: the `elapsed ≥ max_duration` stop. -/
theorem uploadGo_stop_elapsed (maxDur : Nat) (elapsedAt : Nat → Nat)
    (f k r : Nat) (hr : r ≠ 0) (hel : maxDur ≤ elapsedAt k) :
    uploadGo maxDur elapsedAt (f + 1) k r = ([], r) := by
  simp [uploadGo, hr, hel]

/-- Unfolding: a yielding step. -/
theorem uploadGo_step (maxDur : Nat) (elapsedAt : Nat → Nat)
    (f k r : Nat) (hr : r ≠ 0) (hel : ¬ maxDur ≤ elapsedAt k) :
    uploadGo maxDur elapsedAt (f + 1) k r =
      (List.replicate (min r CHUNK_SIZE) 0 ::
        (uploadGo maxDur elapsedAt f (k + 1) (r - min r CHUNK_SIZE)).1,
       (uploadGo maxDur elapsedAt f (k + 1) (r - min r CHUNK_SIZE)).2) := by
  simp [uploadGo, hr, hel]

/-- Invariants of the generator loop, by strong induction on `remaining`
(with enough fuel): the yielded sizes sum to the consumed bytes; the
`(i+1)`-st chunk is `min(remaining_i, CHUNK_SIZE)` zero bytes where
`remaining_i` is what is left after the first `i` chunks; the loop stops
exactly at `remaining = 0` or at an `elapsed ≥ max_duration` observation,
and at no earlier poll did `elapsed ≥ max_duration` hold. -/
theorem uploadGo_spec (maxDur : Nat) (elapsedAt : Nat → Nat) :
    ∀ (r fuel k : Nat), r ≤ fuel →
      ((uploadGo maxDur elapsedAt fuel k r).1.map List.length).sum +
          (uploadGo maxDur elapsedAt fuel k r).2 = r ∧
      (∀ i (h : i < (uploadGo maxDur elapsedAt fuel k r).1.length),
        (uploadGo maxDur elapsedAt fuel k r).1.get ⟨i, h⟩ =
          List.replicate
            (min (r - (((uploadGo maxDur elapsedAt fuel k r).1.take i).map
              List.length).sum) CHUNK_SIZE) 0) ∧
      ((uploadGo maxDur elapsedAt fuel k r).2 = 0 ∨
        maxDur ≤ elapsedAt (k + (uploadGo maxDur elapsedAt fuel k r).1.length)) ∧
      (∀ i < (uploadGo maxDur elapsedAt fuel k r).1.length,
        elapsedAt (k + i) < maxDur) := by
  intro r
  induction r using Nat.strong_induction_on with
  | _ r ih =>
    intro fuel k hle
    rcases Nat.eq_zero_or_pos r with hr | hr
    · subst hr
      cases fuel with
      | zero =>
        rw [uploadGo_fuel_zero]
        exact ⟨rfl, fun i h => absurd h (by simp), Or.inl rfl,
          fun i h => absurd h (by simp)⟩
      | succ f =>
        rw [uploadGo_stop_empty]
        exact ⟨rfl, fun i h => absurd h (by simp), Or.inl rfl,
          fun i h => absurd h (by simp)⟩
    · obtain ⟨f, rfl⟩ : ∃ f, fuel = f + 1 :=
        ⟨fuel - 1, (Nat.succ_pred_eq_of_pos (lt_of_lt_of_le hr hle)).symm⟩
      have hr0 : r ≠ 0 := Nat.pos_iff_ne_zero.mp hr
      by_cases hel : maxDur ≤ elapsedAt k
      · rw [uploadGo_stop_elapsed maxDur elapsedAt f k r hr0 hel]
        exact ⟨by simp, fun i h => absurd h (by simp),
          Or.inr (by simpa using hel), fun i h => absurd h (by simp)⟩
      · have htake1 : 1 ≤ min r CHUNK_SIZE :=
          le_min hr (by simp [CHUNK_SIZE])
        have htake_le : min r CHUNK_SIZE ≤ r := min_le_left _ _
        have hlt : r - min r CHUNK_SIZE < r := Nat.sub_lt hr htake1
        have hle' : r - min r CHUNK_SIZE ≤ f := by omega
        obtain ⟨IH1, IH2, IH3, IH4⟩ := ih _ hlt f (k + 1) hle'
        rw [uploadGo_step maxDur elapsedAt f k r hr0 hel]
        refine ⟨?_, ?_, ?_, ?_⟩
        · simp only [List.map_cons, List.sum_cons, List.length_replicate]
          omega
        · intro i h
          cases i with
          | zero =>
            simp only [List.take_zero, List.map_nil, List.sum_nil, Nat.sub_zero]
            rfl
          | succ j =>
            simp only [List.length_cons, Nat.succ_lt_succ_iff] at h
            simp only [List.get_cons_succ, List.take_succ_cons, List.map_cons,
              List.sum_cons, List.length_replicate]
            rw [IH2 j h, ← Nat.sub_sub]
        · rcases IH3 with h0 | hmax
          · exact Or.inl h0
          · refine Or.inr ?_
            simp only [List.length_cons]
            have harith : k + ((uploadGo maxDur elapsedAt f (k + 1)
                (r - min r CHUNK_SIZE)).1.length + 1) =
                k + 1 + (uploadGo maxDur elapsedAt f (k + 1)
                (r - min r CHUNK_SIZE)).1.length := by omega
            rw [harith]
            exact hmax
        · intro i h
          cases i with
          | zero => simpa using lt_of_not_le hel
          | succ j =>
            simp only [List.length_cons, Nat.succ_lt_succ_iff] at h
            have hj := IH4 j h
            have harith : k + 1 + j = k + (j + 1) := by omega
            rw [harith] at hj
            exact hj

/-- C8 (amended): the upload body generator yields zero-filled buffers of
size `min(remaining, CHUNK_SIZE)` (so full 64 KiB chunks except possibly a
smaller final one), decrementing `remaining` by each yield; the `sent`
counter — the sum of the yielded sizes — equals
`target_bytes − remaining` after every prefix of yields and never exceeds
`target_bytes`; and the stream terminates exactly when `remaining = 0` or
an `elapsed ≥ max_duration` observation is made, no poll before the last
having seen `elapsed ≥ max_duration`. -/
theorem upload_generator_spec (target maxDur : Nat) (elapsedAt : Nat → Nat) :
    (((upload_body target maxDur elapsedAt).1.map List.length).sum +
        (upload_body target maxDur elapsedAt).2 = target) ∧
    (∀ i (h : i < (upload_body target maxDur elapsedAt).1.length),
      (upload_body target maxDur elapsedAt).1.get ⟨i, h⟩ =
        List.replicate
          (min (target - (((upload_body target maxDur elapsedAt).1.take i).map
            List.length).sum) CHUNK_SIZE) 0) ∧
    (((upload_body target maxDur elapsedAt).1.map List.length).sum ≤ target) ∧
    (∀ i, (((upload_body target maxDur elapsedAt).1.take i).map
        List.length).sum ≤ target) ∧
    ((upload_body target maxDur elapsedAt).2 = 0 ∨
      maxDur ≤ elapsedAt (upload_body target maxDur elapsedAt).1.length) ∧
    (∀ i < (upload_body target maxDur elapsedAt).1.length,
      elapsedAt i < maxDur) := by
  have h := uploadGo_spec maxDur elapsedAt target target 0 (le_refl _)
  have hsum : ((upload_body target maxDur elapsedAt).1.map List.length).sum +
      (upload_body target maxDur elapsedAt).2 = target := h.1
  have hle : ((upload_body target maxDur elapsedAt).1.map List.length).sum ≤
      target := by omega
  refine ⟨hsum, h.2.1, hle, ?_, ?_, ?_⟩
  · intro i
    calc (((upload_body target maxDur elapsedAt).1.take i).map List.length).sum
        ≤ ((upload_body target maxDur elapsedAt).1.map List.length).sum := by
          conv_rhs =>
            rw [← List.take_append_drop i (upload_body target maxDur elapsedAt).1]
          rw [List.map_append, List.sum_append]
          exact Nat.le_add_right _ _
      _ ≤ target := hle
  · simpa using h.2.2.1
  · simpa using h.2.2.2

/-- C8 counterexample: with `target_bytes = 100` the single yielded buffer
has 100 bytes, not `CHUNK_SIZE` (64 KiB) — the claim's "yields CHUNK_SIZE
zero-filled buffers" fails on any target that is not a multiple of 64 KiB. -/
theorem upload_chunk_smaller_than_chunk_size :
    ((upload_body 100 1000 (fun _ => 0)).1.map List.length = [100]) ∧
    (100 : Nat) ≠ CHUNK_SIZE := by
  decide

/-! ## Windows UDP platform guards
(`probe/ping/udp/windows.rs`, `probe/trace/udp/windows.rs`)

On Windows the UDP probes that rely on ICMP Destination Unreachable return
a fixed unsupported-platform error immediately, performing no network
action. The functions take the full setting and ignore it. -/

/-- `PingProtocol` selector (`model/ping.rs` is not staged; the closed
protocol set is the spec's §3 data model, matched by the dispatch in
`command/ping.rs:47-63`). -/
inductive PingProtocol where
  | icmp
  | tcp
  | udp
  | quic
  | http
deriving DecidableEq, Repr

/-- Modelled from the spec: `PingSetting` (`model/ping.rs`, not staged) per
§3 — the guard under verification ignores every field. -/
structure PingSetting where
  protocol : PingProtocol
  port : Option Nat
  count : Nat
  timeout_ms : Nat
  interval_ms : Nat
deriving DecidableEq, Repr

/-- Modelled from the spec: `TracerouteSetting` (`model/trace.rs`, not
staged) per §3 — the guard under verification ignores every field. -/
structure TracerouteSetting where
  protocol : PingProtocol
  max_hops : Nat
  tries_per_hop : Nat
  timeout_ms : Nat
deriving DecidableEq, Repr

/-- A network side effect a probe could perform; the guards perform none. -/
inductive NetEffect where
  | socketCreated
  | packetSent
deriving DecidableEq, Repr

/-- `udp_ping_icmp_unreach` (`probe/ping/udp/windows.rs:7-22`): return the
fixed unsupported error at once; no socket is created, no packet sent. The
never-produced `PingStat` success type is modelled as `Unit`. -/
def udp_ping_icmp_unreach (_setting : PingSetting) :
    List NetEffect × Except String Unit :=
  ([], .error "UDP ping via ICMP Port Unreachable is not supported on Windows.")

/-- `udp_traceroute` (`probe/trace/udp/windows.rs:7-22`): same guard for
UDP traceroute. -/
def udp_traceroute (_setting : TracerouteSetting) :
    List NetEffect × Except String Unit :=
  ([], .error "UDP traceroute is not supported on Windows (ICMP capture limitation).")

/-- `msg` contains `phrase` as a contiguous substring. -/
def containsPhrase (phrase msg : String) : Prop :=
  ∃ a b : String, msg = a ++ phrase ++ b

/-- C5: for every UDP `PingSetting` and UDP `TracerouteSetting`, the
Windows probes return the fixed error containing "not supported on
Windows" with an empty effect list — no socket is created and no packet is
sent, on any setting and without reaching the network. -/
theorem windows_udp_unsupported (ps : PingSetting) (ts : TracerouteSetting) :
    (udp_ping_icmp_unreach ps).1 = [] ∧
    (udp_ping_icmp_unreach ps).2 =
      .error "UDP ping via ICMP Port Unreachable is not supported on Windows." ∧
    containsPhrase "not supported on Windows"
      "UDP ping via ICMP Port Unreachable is not supported on Windows." ∧
    (udp_traceroute ts).1 = [] ∧
    (udp_traceroute ts).2 =
      .error "UDP traceroute is not supported on Windows (ICMP capture limitation)." ∧
    containsPhrase "not supported on Windows"
      "UDP traceroute is not supported on Windows (ICMP capture limitation)." :=
  ⟨rfl, rfl,
    ⟨"UDP ping via ICMP Port Unreachable is ", ".", by decide⟩,
    rfl, rfl,
    ⟨"UDP traceroute is ", " (ICMP capture limitation).", by decide⟩⟩

/-! ## Latency engine (`net/latency.rs`)

`measure_latency_jitter` gathers one RTT per sample and finishes with
`latency:done { latency_ms = median(rtts), jitter_ms = stddev(rtts) }`.
The `f64` samples are modelled as exact rationals. `stddev` takes an
`f64` square root, which is not rational; the payload therefore carries
the exact square of the jitter (`stddevSq`), the code's `jitter_ms` being
its `f64` square root. The `f64::NAN` empty-input results are `none`. -/

/-- `median` (`net/latency.rs:19-24`): sort ascending; middle element for
odd length, mean of the two middles for even length. -/
def median (v : List ℚ) : Option ℚ :=
  let s := List.insertionSort (· ≤ ·) v
  let n := s.length
  if n = 0 then none
  else if n % 2 = 1 then some (s.getD (n / 2) 0)
  else some ((s.getD (n / 2 - 1) 0 + s.getD (n / 2) 0) / 2)

/-- Squared `stddev` (`net/latency.rs:26-31`): the population variance,
mean of squared deviations from the mean. -/
def stddevSq (v : List ℚ) : Option ℚ :=
  if v.length = 0 then none
  else
    let mean := v.sum / (v.length : ℚ)
    some ((v.map fun x => (x - mean) * (x - mean)).sum / (v.length : ℚ))

/-- `LatencyDonePayload` (`model/speedtest.rs:57-63`), with `jitter_ms`
carried as its exact square. -/
structure LatencyDonePayload where
  latency_ms : Option ℚ
  jitterSq_ms : Option ℚ
  samples : List ℚ
  colo : Option String
deriving DecidableEq, Repr

/-- The terminal `latency:done` emission of `measure_latency_jitter`
(`net/latency.rs:64-72`): `lat = median(rtts)`, `jit = stddev(rtts)`, and
the gathered samples. -/
def measure_latency_done (rtts : List ℚ) (colo : Option String) :
    LatencyDonePayload :=
  { latency_ms := median rtts
    jitterSq_ms := stddevSq rtts
    samples := rtts
    colo := colo }

/-- Sum of squared deviations from `m`, expanded. -/
theorem sum_sq_dev (m : ℚ) (l : List ℚ) :
    (l.map fun x => (x - m) * (x - m)).sum =
      (l.map fun x => x * x).sum - 2 * m * l.sum + l.length * m ^ 2 := by
  induction l with
  | nil => simp
  | cons a t ih =>
    simp only [List.map_cons, List.sum_cons, ih, List.length_cons]
    push_cast
    ring

/-- C7: for every non-empty sample list, `latency:done` carries
`latency_ms` equal to the middle of a sorted permutation of the samples
(odd length) or the mean of the two middles (even length), and a jitter
whose square is the population variance `Σx²/n − (Σx/n)²`; the samples are
passed through unchanged. In particular `[10,20,30,40,50]` yields median
`30` and variance `200`, i.e. a standard deviation between `14.142` and
`14.143`. -/
theorem latency_done_spec (rtts : List ℚ) (colo : Option String)
    (h : rtts ≠ []) :
    (∃ s : List ℚ, rtts.Perm s ∧ s.Sorted (· ≤ ·) ∧
      s.length = rtts.length ∧
      (measure_latency_done rtts colo).latency_ms =
        some (if s.length % 2 = 1 then s.getD (s.length / 2) 0
          else (s.getD (s.length / 2 - 1) 0 + s.getD (s.length / 2) 0) / 2)) ∧
    (measure_latency_done rtts colo).jitterSq_ms =
      some ((rtts.map fun x => x * x).sum / rtts.length -
        (rtts.sum / rtts.length) ^ 2) ∧
    (measure_latency_done rtts colo).samples = rtts ∧
    median [10, 20, 30, 40, 50] = some 30 ∧
    stddevSq [10, 20, 30, 40, 50] = some 200 ∧
    ((14142 : ℚ) / 1000) ^ 2 ≤ 200 ∧ (200 : ℚ) < ((14143 : ℚ) / 1000) ^ 2 := by
  have hlen0 : rtts.length ≠ 0 := by
    simpa [List.length_eq_zero] using h
  have hlen : (List.insertionSort (· ≤ ·) rtts).length = rtts.length :=
    (List.perm_insertionSort _ _).length_eq
  have hq : (rtts.length : ℚ) ≠ 0 := Nat.cast_ne_zero.mpr hlen0
  refine ⟨⟨List.insertionSort (· ≤ ·) rtts,
      (List.perm_insertionSort _ _).symm,
      List.sorted_insertionSort _ _, hlen, ?_⟩, ?_, rfl, ?_, ?_, ?_, ?_⟩
  · show median rtts = _
    simp only [median]
    rw [if_neg (by simpa [hlen] using hlen0)]
    split <;> rfl
  · show stddevSq rtts = _
    simp only [stddevSq]
    rw [if_neg hlen0]
    congr 1
    rw [sum_sq_dev (rtts.sum / rtts.length) rtts]
    field_simp
    ring
  · decide
  · norm_num [stddevSq]
  · norm_num
  · norm_num

/-- C7 witness: the spec's own example `[10,20,30,40,50]`. -/
theorem latency_done_spec_witness :
    (∃ s : List ℚ, List.Perm [10, 20, 30, 40, 50] s ∧ s.Sorted (· ≤ ·) ∧
      s.length = ([10, 20, 30, 40, 50] : List ℚ).length ∧
      (measure_latency_done [10, 20, 30, 40, 50] none).latency_ms =
        some (if s.length % 2 = 1 then s.getD (s.length / 2) 0
          else (s.getD (s.length / 2 - 1) 0 + s.getD (s.length / 2) 0) / 2)) ∧
    (measure_latency_done [10, 20, 30, 40, 50] none).jitterSq_ms =
      some ((([10, 20, 30, 40, 50] : List ℚ).map fun x => x * x).sum /
          ([10, 20, 30, 40, 50] : List ℚ).length -
        (([10, 20, 30, 40, 50] : List ℚ).sum /
          ([10, 20, 30, 40, 50] : List ℚ).length) ^ 2) ∧
    (measure_latency_done [10, 20, 30, 40, 50] none).samples =
      [10, 20, 30, 40, 50] ∧
    median [10, 20, 30, 40, 50] = some 30 ∧
    stddevSq [10, 20, 30, 40, 50] = some 200 ∧
    ((14142 : ℚ) / 1000) ^ 2 ≤ 200 ∧ (200 : ℚ) < ((14143 : ℚ) / 1000) ^ 2 :=
  latency_done_spec [10, 20, 30, 40, 50] none (by decide)

/-! ## ICMP host-scan engine (`probe/scan/icmp.rs`)

`host_scan` resolves targets to a unique-by-IP map, opens one raw socket
per address family in use, fans workers out over the targets and collects
their classifications into a `HostScanReport`. The model keeps the
run-local data the verified properties are about:

* resolution (`setting.resolve_targets()`, `model/scan.rs`, not staged) is
  DNS-dependent and is abstracted as the resolved host list the code
  receives from it;
* the per-round network behaviour a worker observes (reply, send error,
  closed reply channel, timeout) is a parameter `tryAt`;
* the throttle's time-dependent decision (`ThrottledProgress`, not
  staged) is a parameter `throttleEmit`;
* cancellation is `cancelAfter`: `some n` means the token fired during
  collection after `n` worker results (the collection loop's
  `tokio::select!`, `icmp.rs:285-310`), `none` means it never fired;
* `run_id` (an opaque per-run UUID) and the worker-order nondeterminism of
  `buffer_unordered` are dropped: the claims are order-insensitive counts
  and memberships;
* `f64` does not occur in this engine; RTTs are `u64` milliseconds. -/

/-- An IP address, abstracted to its family plus an identifying number. -/
inductive IpAddr where
  | v4 (a : Nat)
  | v6 (a : Nat)
deriving DecidableEq, Repr

/-- `IpAddr::is_ipv4`. -/
def IpAddr.isIpv4 : IpAddr → Bool
  | .v4 _ => true
  | .v6 _ => false

/-- `IpAddr::is_ipv6`. -/
def IpAddr.isIpv6 : IpAddr → Bool
  | .v4 _ => false
  | .v6 _ => true

/-- `SocketFamily` (`socket/mod.rs`, not staged). -/
inductive SocketFamily where
  | ipv4
  | ipv6
deriving DecidableEq, Repr

/-- Modelled from the spec: `SocketFamily::from_ip` (`socket/mod.rs`, not
staged) classifies an address by its family (§4.5: family-specific socket
and pending map). -/
def SocketFamily.from_ip : IpAddr → SocketFamily
  | .v4 _ => .ipv4
  | .v6 _ => .ipv6

/-- `Host` (`model/endpoint.rs`, not staged): an endpoint, keyed by IP. -/
structure Host where
  ip : IpAddr
  hostname : Option String
deriving DecidableEq, Repr

/-- `HostState` (`model/scan.rs`). -/
inductive HostState where
  | alive
  | unreachable
deriving DecidableEq, Repr

/-- The worker messages (`icmp.rs:206,225,230,244`), as the closed set of
templates the code formats; `render` gives the literal strings. -/
inductive ScanMsg where
  | sendErr (e : String)
  | waitCanceled
  | timeoutMsg (ms : Nat)
  | noSocketForFamily
deriving DecidableEq, Repr

/-- The literal message strings of `icmp.rs`. -/
def ScanMsg.render : ScanMsg → String
  | .sendErr e => "send error: " ++ e
  | .waitCanceled => "wait canceled"
  | .timeoutMsg ms => "timeout (>" ++ toString ms ++ "ms)"
  | .noSocketForFamily => "no suitable socket for IP family"

/-- `HostScanProgress` sample of one worker (`icmp.rs:250-258`), without
the run-global `run_id`/`done`/`total` bookkeeping fields. -/
structure HostScanSample where
  ip_addr : IpAddr
  state : HostState
  rtt_ms : Option Nat
  message : Option ScanMsg
deriving DecidableEq, Repr

/-- `HostScanReport` (`model/scan.rs`), without the opaque `run_id`. -/
structure HostScanReport where
  total : Nat
  alive : List (Host × Nat)
  unreachable : List Host
deriving DecidableEq, Repr

/-- Drop every entry with the given key. -/
def removeIp : List (IpAddr × Host) → IpAddr → List (IpAddr × Host)
  | [], _ => []
  | e :: rest, ip =>
    if e.1 = ip then removeIp rest ip else e :: removeIp rest ip

/-- `HashMap` insert while collecting `(h.ip, h)` pairs: a later host with
the same IP replaces an earlier one. -/
def insertHost (m : List (IpAddr × Host)) (h : Host) : List (IpAddr × Host) :=
  (h.ip, h) :: removeIp m h.ip

/-- `target_map` (`icmp.rs:82`): the resolved hosts keyed by IP, unique by
IP; `total` is its size (`icmp.rs:83`). -/
def buildTargetMap (hosts : List Host) : List (IpAddr × Host) :=
  hosts.foldl insertHost []

/-- `HashMap::get` on the association list. -/
def lookupIp : List (IpAddr × Host) → IpAddr → Option Host
  | [], _ => none
  | e :: rest, ip => if e.1 = ip then some e.2 else lookupIp rest ip

/-- `ip_list` (`icmp.rs:116`): the keys of the target map. -/
def scanKeys (resolved : List Host) : List IpAddr :=
  (buildTargetMap resolved).map Prod.fst

/-- Whether a v4 socket is opened (`icmp.rs:94`): iff some target is v4. -/
def scanAnyV4 (resolved : List Host) : Bool :=
  (scanKeys resolved).any IpAddr.isIpv4

/-- Whether a v6 socket is opened (`icmp.rs:102`): iff some target is v6. -/
def scanAnyV6 (resolved : List Host) : Bool :=
  (scanKeys resolved).any IpAddr.isIpv6

/-- The network's behaviour at one send/await round of a worker
(`icmp.rs:194-232`): the send fails, the echo reply arrives in time, the
one-shot reply channel closes without a reply, or the wait times out. -/
inductive TryResult where
  | reply (rtt : Nat)
  | sendErr (msg : String)
  | waitClosed
  | timedOut
deriving DecidableEq, Repr

/-- The `for seq in 1..=cnt` retry loop of a worker (`icmp.rs:164-233`),
threading `last_err` and breaking on the first reply (so `best_rtt` is
that reply's RTT). Returns `(best_rtt, last_err)`. -/
def runTries (timeoutMs : Nat) (tryAt : Nat → TryResult) :
    List Nat → Option ScanMsg → Option Nat × Option ScanMsg
  | [], lastErr => (none, lastErr)
  | seq :: rest, lastErr =>
    match tryAt seq with
    | .reply rtt => (some rtt, lastErr)
    | .sendErr e => runTries timeoutMs tryAt rest (some (.sendErr e))
    | .waitClosed => runTries timeoutMs tryAt rest (some .waitCanceled)
    | .timedOut => runTries timeoutMs tryAt rest (some (.timeoutMsg timeoutMs))

/-- Which socket a worker selects for a destination (`icmp.rs:145-156`):
the family-matching one of the sockets opened per `icmp.rs:94-108`
(creation assumed successful — on failure `host_scan` returns with `?`
before any worker runs). -/
def familySocket (anyV4 anyV6 : Bool) (ip : IpAddr) : Option Unit :=
  match SocketFamily.from_ip ip with
  | .ipv4 => if anyV4 then some () else none
  | .ipv6 => if anyV6 then some () else none

/-- Classification of one target (`icmp.rs:158-246`): with a socket, run
the retry loop over `seq = 1..=max(count,1)` and classify `Alive(best)`
or `Unreachable(last_err)`; without one, the
`"no suitable socket for IP family"` branch. -/
def workerClassify (anyV4 anyV6 : Bool) (timeoutMs cnt : Nat)
    (tryAt : IpAddr → Nat → TryResult) (dst : IpAddr) :
    HostState × Option Nat × Option ScanMsg :=
  match familySocket anyV4 anyV6 dst with
  | some _ =>
    match runTries timeoutMs (tryAt dst) (List.range' 1 (max cnt 1)) none with
    | (some rtt, _) => (.alive, some rtt, none)
    | (none, lastErr) => (.unreachable, none, lastErr)
  | none => (.unreachable, none, some .noSocketForFamily)

/-- A worker's sample (`icmp.rs:248-275`) for destination `dst`. -/
def worker (anyV4 anyV6 : Bool) (timeoutMs cnt : Nat)
    (tryAt : IpAddr → Nat → TryResult) (dst : IpAddr) : HostScanSample :=
  { ip_addr := dst
    state := (workerClassify anyV4 anyV6 timeoutMs cnt tryAt dst).1
    rtt_ms := (workerClassify anyV4 anyV6 timeoutMs cnt tryAt dst).2.1
    message := (workerClassify anyV4 anyV6 timeoutMs cnt tryAt dst).2.2 }

/-- All worker samples of a run, one per resolved unique IP
(`icmp.rs:121-278`). -/
def hostScanSamples (resolved : List Host) (timeoutMs cnt : Nat)
    (tryAt : IpAddr → Nat → TryResult) : List HostScanSample :=
  (scanKeys resolved).map
    (worker (scanAnyV4 resolved) (scanAnyV6 resolved) timeoutMs cnt tryAt)

/-- The collection loop's aggregation (`icmp.rs:296-309`): partition the
samples into `alive` (with RTT, defaulting to 0) and `unreachable`,
looking each sample's IP back up in the target map. -/
def collectSamples (tmap : List (IpAddr × Host)) :
    List HostScanSample → List (Host × Nat) × List Host
  | [] => ([], [])
  | s :: rest =>
    match s.state, lookupIp tmap s.ip_addr with
    | .alive, some host =>
      ((host, s.rtt_ms.getD 0) :: (collectSamples tmap rest).1,
        (collectSamples tmap rest).2)
    | .unreachable, some host =>
      ((collectSamples tmap rest).1, host :: (collectSamples tmap rest).2)
    | _, none => collectSamples tmap rest

/-- The report of a run that collected every sample (`icmp.rs:327-332`). -/
def hostScanReport (resolved : List Host) (timeoutMs cnt : Nat)
    (tryAt : IpAddr → Nat → TryResult) : HostScanReport :=
  { total := (buildTargetMap resolved).length
    alive := (collectSamples (buildTargetMap resolved)
      (hostScanSamples resolved timeoutMs cnt tryAt)).1
    unreachable := (collectSamples (buildTargetMap resolved)
      (hostScanSamples resolved timeoutMs cnt tryAt)).2 }

/-- The observable events of a host-scan run. -/
inductive ScanEvent where
  | start
  | openSocketV4
  | openSocketV6
  | aliveEv (s : HostScanSample)
  | progressEv (done total : Nat)
  | cancelledEv
  | doneEv (r : HostScanReport)
deriving DecidableEq, Repr

/-- Socket-opening effects (`icmp.rs:94-108`). -/
def sockEvents (resolved : List Host) : List ScanEvent :=
  (if scanAnyV4 resolved then [ScanEvent.openSocketV4] else []) ++
  (if scanAnyV6 resolved then [ScanEvent.openSocketV6] else [])

/-- Per-worker emissions (`icmp.rs:248-273`): `hostscan:alive` for an
alive sample, `hostscan:progress` when the throttle permits at that
progress count. -/
def sampleEvents (throttleEmit : Nat → Bool) (total : Nat) :
    Nat → List HostScanSample → List ScanEvent
  | _, [] => []
  | k, s :: rest =>
    (if s.state = .alive then [ScanEvent.aliveEv s] else []) ++
    (if throttleEmit (k + 1) then [ScanEvent.progressEv (k + 1) total] else []) ++
    sampleEvents throttleEmit total (k + 1) rest

/-- `host_scan` (`icmp.rs:60-336`): emitted events and returned result.

* `total = 0` (`icmp.rs:85-89`): emit an empty `done` report and return it
  — before any socket is opened, before any worker runs, and before the
  cancellation token is ever consulted;
* token fired during collection after `n` results (`icmp.rs:285-292,
  322-325`): emit `hostscan:cancelled`, return `Err("cancelled")`, no
  `done`;
* otherwise (`icmp.rs:327-335`): emit `hostscan:done` with the collected
  report and return it. -/
def host_scan (resolved : List Host) (timeoutMs cnt : Nat)
    (tryAt : IpAddr → Nat → TryResult) (throttleEmit : Nat → Bool)
    (cancelAfter : Option Nat) :
    List ScanEvent × Except String HostScanReport :=
  if (buildTargetMap resolved).length = 0 then
    ([ScanEvent.start,
      ScanEvent.doneEv { total := 0, alive := [], unreachable := [] }],
     .ok { total := 0, alive := [], unreachable := [] })
  else
    match cancelAfter with
    | some n =>
      (ScanEvent.start :: sockEvents resolved ++
        sampleEvents throttleEmit (buildTargetMap resolved).length 0
          ((hostScanSamples resolved timeoutMs cnt tryAt).take n) ++
        [ScanEvent.cancelledEv],
       .error "cancelled")
    | none =>
      (ScanEvent.start :: sockEvents resolved ++
        sampleEvents throttleEmit (buildTargetMap resolved).length 0
          (hostScanSamples resolved timeoutMs cnt tryAt) ++
        [ScanEvent.doneEv (hostScanReport resolved timeoutMs cnt tryAt)],
       .ok (hostScanReport resolved timeoutMs cnt tryAt))

/-- A key of the map is found by `lookupIp`. -/
theorem lookupIp_isSome {m : List (IpAddr × Host)} {ip : IpAddr}
    (h : ip ∈ m.map Prod.fst) : (lookupIp m ip).isSome := by
  induction m with
  | nil => simp at h
  | cons e rest ih =>
    by_cases he : e.1 = ip
    · simp [lookupIp, he]
    · simp only [List.map_cons, List.mem_cons] at h
      rcases h with h | h
      · exact absurd h.symm he
      · simp [lookupIp, he, ih h]

/-- When every sample's IP is found in the target map, the collection
partitions the samples: `|alive| + |unreachable| = |samples|`. -/
theorem collectSamples_length (tmap : List (IpAddr × Host)) :
    ∀ samples : List HostScanSample,
      (∀ s ∈ samples, (lookupIp tmap s.ip_addr).isSome) →
      (collectSamples tmap samples).1.length +
        (collectSamples tmap samples).2.length = samples.length := by
  intro samples
  induction samples with
  | nil => intro _; rfl
  | cons s rest ih =>
    intro hall
    have hs := hall s (List.mem_cons_self _ _)
    have hrest := ih fun t ht => hall t (List.mem_cons_of_mem _ ht)
    cases hlook : lookupIp tmap s.ip_addr with
    | none => rw [hlook] at hs; cases hs
    | some host =>
      cases hstate : s.state with
      | alive =>
        simp only [collectSamples, hstate, hlook, List.length_cons]
        omega
      | unreachable =>
        simp only [collectSamples, hstate, hlook, List.length_cons]
        omega

/-- Every sample's IP is a key of the target map. -/
theorem hostScanSamples_ip (resolved : List Host) (timeoutMs cnt : Nat)
    (tryAt : IpAddr → Nat → TryResult) :
    ∀ s ∈ hostScanSamples resolved timeoutMs cnt tryAt,
      s.ip_addr ∈ scanKeys resolved := by
  intro s hs
  simp only [hostScanSamples, List.mem_map] at hs
  obtain ⟨ip, hip, rfl⟩ := hs
  simpa [worker] using hip

/-- One sample per resolved unique IP. -/
theorem hostScanSamples_length (resolved : List Host) (timeoutMs cnt : Nat)
    (tryAt : IpAddr → Nat → TryResult) :
    (hostScanSamples resolved timeoutMs cnt tryAt).length =
      (buildTargetMap resolved).length := by
  simp [hostScanSamples, scanKeys]

/-- Socket events are socket events. -/
theorem sockEvents_shape (resolved : List Host) {ev : ScanEvent}
    (hev : ev ∈ sockEvents resolved) :
    ev = ScanEvent.openSocketV4 ∨ ev = ScanEvent.openSocketV6 := by
  simp only [sockEvents, List.mem_append] at hev
  rcases hev with h | h <;> split_ifs at h <;> simp_all

/-- Worker emissions are `alive` samples or `progress` counts. -/
theorem sampleEvents_shape (throttleEmit : Nat → Bool) (total : Nat) :
    ∀ (k : Nat) (samples : List HostScanSample) (ev : ScanEvent),
      ev ∈ sampleEvents throttleEmit total k samples →
      (∃ s, ev = ScanEvent.aliveEv s) ∨ (∃ d t, ev = ScanEvent.progressEv d t) := by
  intro k samples
  induction samples generalizing k with
  | nil => intro ev hev; simp [sampleEvents] at hev
  | cons s rest ih =>
    intro ev hev
    simp only [sampleEvents] at hev
    rcases List.mem_append.mp hev with h | h
    · rcases List.mem_append.mp h with h1 | h1
      · by_cases hal : s.state = HostState.alive
        · rw [if_pos hal] at h1
          exact Or.inl ⟨s, List.mem_singleton.mp h1⟩
        · rw [if_neg hal] at h1
          cases h1
      · cases hth : throttleEmit (k + 1) <;> rw [hth] at h1
        · simp at h1
        · exact Or.inr ⟨k + 1, total, by simpa using h1⟩
    · exact ih (k + 1) ev h

/-- C4: a host-scan run that completes without cancellation reports
`total = `(number of resolved unique target IPs) and
`|alive| + |unreachable| = total`; a run whose token fires during
collection emits `hostscan:cancelled`, emits no `hostscan:done`, and
returns the cancelled error. -/
theorem host_scan_counts (resolved : List Host) (timeoutMs cnt : Nat)
    (tryAt : IpAddr → Nat → TryResult) (throttleEmit : Nat → Bool) :
    (∀ report,
      (host_scan resolved timeoutMs cnt tryAt throttleEmit none).2 =
        .ok report →
      report.total = (buildTargetMap resolved).length ∧
      report.alive.length + report.unreachable.length = report.total) ∧
    (∀ n, (buildTargetMap resolved).length ≠ 0 →
      ScanEvent.cancelledEv ∈
        (host_scan resolved timeoutMs cnt tryAt throttleEmit (some n)).1 ∧
      (∀ r, ScanEvent.doneEv r ∉
        (host_scan resolved timeoutMs cnt tryAt throttleEmit (some n)).1) ∧
      (host_scan resolved timeoutMs cnt tryAt throttleEmit (some n)).2 =
        .error "cancelled") := by
  constructor
  · intro report hrep
    by_cases h0 : (buildTargetMap resolved).length = 0
    · simp only [host_scan, if_pos h0] at hrep
      cases hrep
      exact ⟨h0.symm, rfl⟩
    · simp only [host_scan, if_neg h0] at hrep
      cases hrep
      refine ⟨rfl, ?_⟩
      show (collectSamples (buildTargetMap resolved)
          (hostScanSamples resolved timeoutMs cnt tryAt)).1.length +
        (collectSamples (buildTargetMap resolved)
          (hostScanSamples resolved timeoutMs cnt tryAt)).2.length =
        (buildTargetMap resolved).length
      rw [collectSamples_length _ _
        (fun s hs => lookupIp_isSome (hostScanSamples_ip _ _ _ _ s hs)),
        hostScanSamples_length]
  · intro n h0
    simp only [host_scan, if_neg h0]
    refine ⟨?_, ?_, by trivial⟩
    · simp
    · intro r hr
      rcases List.mem_append.mp hr with h | h
      · rcases List.mem_cons.mp h with h' | h'
        · cases h'
        · rcases List.mem_append.mp h' with h'' | h''
          · rcases sockEvents_shape resolved h'' with h3 | h3 <;> cases h3
          · rcases sampleEvents_shape throttleEmit _ 0 _ _ h'' with
              ⟨s, h3⟩ | ⟨d, t, h3⟩ <;> cases h3
      · cases List.mem_singleton.mp h

/-- C9: a host scan whose resolved unique-by-IP target set is empty emits
`hostscan:start` and then one `hostscan:done` with the empty report
(`total = 0`, no alive, no unreachable) and returns that report
successfully — no socket is opened and no progress event is emitted
(cancellation is irrelevant: the token is never consulted). -/
theorem host_scan_empty_targets (resolved : List Host) (timeoutMs cnt : Nat)
    (tryAt : IpAddr → Nat → TryResult) (throttleEmit : Nat → Bool)
    (cancelAfter : Option Nat)
    (h : (buildTargetMap resolved).length = 0) :
    (host_scan resolved timeoutMs cnt tryAt throttleEmit cancelAfter).1 =
      [ScanEvent.start,
        ScanEvent.doneEv { total := 0, alive := [], unreachable := [] }] ∧
    (host_scan resolved timeoutMs cnt tryAt throttleEmit cancelAfter).2 =
      .ok { total := 0, alive := [], unreachable := [] } ∧
    ScanEvent.openSocketV4 ∉
      (host_scan resolved timeoutMs cnt tryAt throttleEmit cancelAfter).1 ∧
    ScanEvent.openSocketV6 ∉
      (host_scan resolved timeoutMs cnt tryAt throttleEmit cancelAfter).1 ∧
    (∀ d t, ScanEvent.progressEv d t ∉
      (host_scan resolved timeoutMs cnt tryAt throttleEmit cancelAfter).1) := by
  simp only [host_scan, if_pos h]
  refine ⟨by trivial, by trivial, by simp, by simp, ?_⟩
  intro d t hmem
  simp at hmem

/-- C9 witness: an empty target list. -/
theorem host_scan_empty_targets_witness :
    (host_scan [] 500 1 (fun _ _ => TryResult.timedOut) (fun _ => false)
        none).1 =
      [ScanEvent.start,
        ScanEvent.doneEv { total := 0, alive := [], unreachable := [] }] ∧
    (host_scan [] 500 1 (fun _ _ => TryResult.timedOut) (fun _ => false)
        none).2 =
      .ok { total := 0, alive := [], unreachable := [] } ∧
    ScanEvent.openSocketV4 ∉
      (host_scan [] 500 1 (fun _ _ => TryResult.timedOut) (fun _ => false)
        none).1 ∧
    ScanEvent.openSocketV6 ∉
      (host_scan [] 500 1 (fun _ _ => TryResult.timedOut) (fun _ => false)
        none).1 ∧
    (∀ d t, ScanEvent.progressEv d t ∉
      (host_scan [] 500 1 (fun _ _ => TryResult.timedOut) (fun _ => false)
        none).1) :=
  host_scan_empty_targets [] 500 1 (fun _ _ => TryResult.timedOut)
    (fun _ => false) none (by decide)

/-- The retry loop never invents the "no suitable socket" message: its
`last_err` values are send errors, "wait canceled", or timeouts. -/
theorem runTries_no_socket_msg (timeoutMs : Nat) (tryAt : Nat → TryResult) :
    ∀ (seqs : List Nat) (acc : Option ScanMsg),
      acc ≠ some ScanMsg.noSocketForFamily →
      (runTries timeoutMs tryAt seqs acc).2 ≠ some ScanMsg.noSocketForFamily := by
  intro seqs
  induction seqs with
  | nil =>
    intro acc hacc
    simpa [runTries] using hacc
  | cons q rest ih =>
    intro acc hacc
    cases htq : tryAt q with
    | reply rtt => simpa [runTries, htq] using hacc
    | sendErr e =>
      simp only [runTries, htq]
      exact ih _ (by simp)
    | waitClosed =>
      simp only [runTries, htq]
      exact ih _ (by simp)
    | timedOut =>
      simp only [runTries, htq]
      exact ih _ (by simp)

/-- C10: in `host_scan`, every resolved target's family lookup finds a
socket — a v4 socket exists because that target itself witnesses the "any
target is v4" opening condition (likewise v6) — so the
`Unreachable("no suitable socket for IP family")` classification branch is
unreachable: no worker sample ever carries that message. -/
theorem host_scan_no_missing_socket (resolved : List Host)
    (timeoutMs cnt : Nat) (tryAt : IpAddr → Nat → TryResult) :
    (∀ ip ∈ scanKeys resolved,
      familySocket (scanAnyV4 resolved) (scanAnyV6 resolved) ip = some ()) ∧
    (∀ s ∈ hostScanSamples resolved timeoutMs cnt tryAt,
      s.message ≠ some ScanMsg.noSocketForFamily) := by
  have hfam : ∀ ip ∈ scanKeys resolved,
      familySocket (scanAnyV4 resolved) (scanAnyV6 resolved) ip = some () := by
    intro ip hip
    cases ip with
    | v4 a =>
      have h4 : scanAnyV4 resolved = true := by
        simp only [scanAnyV4, List.any_eq_true]
        exact ⟨IpAddr.v4 a, hip, rfl⟩
      simp [familySocket, SocketFamily.from_ip, h4]
    | v6 a =>
      have h6 : scanAnyV6 resolved = true := by
        simp only [scanAnyV6, List.any_eq_true]
        exact ⟨IpAddr.v6 a, hip, rfl⟩
      simp [familySocket, SocketFamily.from_ip, h6]
  refine ⟨hfam, ?_⟩
  intro s hs
  simp only [hostScanSamples, List.mem_map] at hs
  obtain ⟨ip, hip, rfl⟩ := hs
  show (workerClassify _ _ _ _ _ _).2.2 ≠ _
  unfold workerClassify
  rw [hfam ip hip]
  cases hrt : runTries timeoutMs (tryAt ip) (List.range' 1 (max cnt 1)) none with
  | mk best lastErr =>
    cases best with
    | some rtt => simp
    | none =>
      simp only []
      have := runTries_no_socket_msg timeoutMs (tryAt ip)
        (List.range' 1 (max cnt 1)) none (by simp)
      rw [hrt] at this
      simpa using this

end Netdia
